import Mathlib

/-!
Verification of the request-admission-control subsystem (rate limiter) of
the Ai-Coding-Mentor backend, shallow-embedded from
`backend/app/middleware/rate_limiting.py`.

Times and counters are Python integers, embedded as `Int`.
-/

namespace RateLimiting

/-- The `info` dictionary returned by every check:
`{"limit": ..., "remaining": ..., "reset": ..., "current": ...}`. -/
structure AdmissionInfo where
  limit : Int
  remaining : Int
  reset : Int
  current : Int
deriving DecidableEq, Repr

/-! ## Local (in-memory) backend: `RateLimiter._check_memory` -/

/-- The expiry loop `while timestamps and timestamps[0] <= now - window:
timestamps.popleft()`: pop entries from the front while the head is at or
before the cutoff `now - window`. -/
def trimExpired (now window : Int) (ts : List Int) : List Int :=
  ts.dropWhile (fun t => decide (t ≤ now - window))

/-- The per-key body of `RateLimiter._check_memory` (lines 128-150): trim
expired entries, count, admit iff `current_count < limit`, appending `now`
on admission.  Returns the `(allowed, info)` pair and the key's new
timestamp sequence. -/
def check_memory_key (limit window now : Int) (ts : List Int) :
    (Bool × AdmissionInfo) × List Int :=
  let ts1 := trimExpired now window ts
  let current_count : Int := ts1.length
  let allowed : Bool := decide (current_count < limit)
  let ts2 := if allowed then ts1 ++ [now] else ts1
  let current_count := if allowed then current_count + 1 else current_count
  let remaining := max 0 (limit - current_count)
  let reset_time := now + window
  ((allowed, ⟨limit, remaining, reset_time, current_count⟩), ts2)

/-- `self.memory_store`, a `defaultdict(lambda: deque())`, together with
`self.last_cleanup`.  The store is an insertion-ordered map from key to
the key's timestamp deque. -/
structure MemoryState where
  store : List (String × List Int)
  lastCleanup : Int
deriving DecidableEq, Repr

/-- `self.memory_store[key]` read as a defaultdict: a missing key reads as
the empty deque. -/
def msGet (store : List (String × List Int)) (key : String) : List Int :=
  match store.find? (fun p => p.1 == key) with
  | some p => p.2
  | none => []

/-- Writing back the (possibly mutated) deque of `key`: replace the first
binding, or append a fresh binding when the key was absent (the defaultdict
inserts the deque on first access). -/
def msSet (store : List (String × List Int)) (key : String) (v : List Int) :
    List (String × List Int) :=
  match store with
  | [] => [(key, v)]
  | p :: rest =>
      if p.1 == key then (key, v) :: rest else p :: msSet rest key v

/-- `RateLimiter._cleanup_memory(now, default_window)` (lines 152-166):
trim every key's deque by the single window passed in, then delete the
keys whose deque became empty. -/
def cleanup_memory (now default_window : Int)
    (store : List (String × List Int)) : List (String × List Int) :=
  (store.map (fun p => (p.1, trimExpired now default_window p.2))).filter
    (fun p => !p.2.isEmpty)

/-- `self.memory_cleanup_interval = 60`. -/
def memory_cleanup_interval : Int := 60

/-- `RateLimiter._check_memory` (lines 120-150) including the opportunistic
cleanup trigger: when `now - last_cleanup > 60` the whole store is swept
with the *current* check's window, and `last_cleanup` is set to `now`. -/
def check_memory (st : MemoryState) (key : String) (limit window now : Int) :
    (Bool × AdmissionInfo) × MemoryState :=
  let st1 : MemoryState :=
    if now - st.lastCleanup > memory_cleanup_interval then
      ⟨cleanup_memory now window st.store, now⟩
    else st
  let ts := msGet st1.store key
  let res := check_memory_key limit window now ts
  (res.1, ⟨msSet st1.store key res.2, st1.lastCleanup⟩)

/-! ## Shared (Redis) backend: `RateLimiter._check_redis`

The Redis value at the rate key is a sorted set of (member, score) pairs
with unique members; the code stores member `str(now)` with score `now`.
We embed the sorted set of one key as an association list with unique
members (order is irrelevant to `zcard`/range deletes). -/

/-- A Redis sorted set: members with integer scores. -/
abbrev Zset : Type := List (String × Int)

/-- `ZREMRANGEBYSCORE key lo hi`: drop every member whose score lies in
the closed interval `[lo, hi]`. -/
def zremrangebyscore (lo hi : Int) (z : Zset) : Zset :=
  z.filter (fun p => !(decide (lo ≤ p.2) && decide (p.2 ≤ hi)))

/-- `ZADD key score member` for one member: overwrite the score if the
member exists, otherwise append it. -/
def zadd (member : String) (score : Int) (z : Zset) : Zset :=
  if z.any (fun p => p.1 == member) then
    z.map (fun p => if p.1 == member then (member, score) else p)
  else z ++ [(member, score)]

/-- `ZREM key member`: remove the member if present. -/
def zrem (member : String) (z : Zset) : Zset :=
  z.filter (fun p => !(p.1 == member))

/-- The Redis transaction plus best-effort rollback of
`RateLimiter._check_redis` (lines 80-113), acting on the key's sorted set:
`zremrangebyscore key 0 (now-window)`; `zcard`; `zadd key (str now) now`;
`current = count + 1`; `allowed = current <= limit`; on denial
`zrem key (str now)`.  (`expire key window` only sets a TTL and does not
change the membership embedded here.) -/
def redis_check_core (limit window now : Int) (z : Zset) :
    (Bool × AdmissionInfo) × Zset :=
  let z1 := zremrangebyscore 0 (now - window) z
  let count : Int := z1.length
  let z2 := zadd (toString now) now z1
  let current_count := count + 1
  let remaining := max 0 (limit - current_count)
  let reset_time := now + window
  let allowed : Bool := decide (current_count ≤ limit)
  let z3 := if allowed then z2 else zrem (toString now) z2
  ((allowed, ⟨limit, remaining, reset_time, current_count⟩), z3)

/-- `RateLimiter._check_redis` with its `try/except`: `fails = true` means
the pipeline raised (store unreachable, timeout, protocol error). -/
def check_redis_raw (fails : Bool) (limit window now : Int) (z : Zset) :
    Except Unit ((Bool × AdmissionInfo) × Zset) :=
  if fails then Except.error () else Except.ok (redis_check_core limit window now z)

/-- `RateLimiter.is_allowed` (lines 59-76) together with the
`except Exception` handler of `_check_redis` (lines 115-118): when a Redis
client is configured, run the Redis check; if it raises, fall back to
`_check_memory` on the same arguments for this single check.  Without a
client, go straight to the memory backend.  Returns the result, the
(per-key) Redis state and the memory state. -/
def is_allowed (redisUp fails : Bool) (z : Zset) (mem : MemoryState)
    (key : String) (limit window : Int) (now : Int) :
    (Bool × AdmissionInfo) × Zset × MemoryState :=
  if redisUp then
    match check_redis_raw fails limit window now z with
    | Except.ok (r, z') => (r, z', mem)
    | Except.error _ =>
        let rm := check_memory mem key limit window now
        (rm.1, z, rm.2)
  else
    let rm := check_memory mem key limit window now
    (rm.1, z, rm.2)

/-- Sequentially run one Redis check per timestamp in `ks` against the same
key (each call is one serialized transaction followed immediately by its
rollback, i.e. one complete `_check_redis` call), collecting the admission
decisions. -/
def runRedisChecks (limit window : Int) (z : Zset) :
    List Int → List Bool × Zset
  | [] => ([], z)
  | t :: rest =>
      let step := redis_check_core limit window t z
      let next := runRedisChecks limit window step.2 rest
      (step.1.1 :: next.1, next.2)

/-- The sorted-set contents left by a sequence of admitted checks at the
given times: one member `str(t)` with score `t` per admitted time. -/
def zOfTimes (ts : List Int) : Zset :=
  ts.map (fun t => (toString t, t))

/-! ## KeyDeriver: `create_rate_limit_key` (lines 211-215)

The code computes `hashlib.sha256(ip.encode()).hexdigest()[:16]`.  We embed
`ip.encode()` as UTF-8 byte encoding and `hashlib.sha256(...).hexdigest()`
as a full executable SHA-256 over byte lists (words are `Nat` reduced
mod 2^32), validated below against the standard test vectors. -/

/-- 32-bit right rotation. -/
def rotr32 (n x : Nat) : Nat := ((x >>> n) ||| (x <<< (32 - n))) % 4294967296

/-- The SHA-256 round constants (decimal). -/
def sha_k : List Nat :=
  [1116352408, 1899447441, 3049323471, 3921009573,
   961987163, 1508970993, 2453635748, 2870763221,
   3624381080, 310598401, 607225278, 1426881987,
   1925078388, 2162078206, 2614888103, 3248222580,
   3835390401, 4022224774, 264347078, 604807628,
   770255983, 1249150122, 1555081692, 1996064986,
   2554220882, 2821834349, 2952996808, 3210313671,
   3336571891, 3584528711, 113926993, 338241895,
   666307205, 773529912, 1294757372, 1396182291,
   1695183700, 1986661051, 2177026350, 2456956037,
   2730485921, 2820302411, 3259730800, 3345764771,
   3516065817, 3600352804, 4094571909, 275423344,
   430227734, 506948616, 659060556, 883997877,
   958139571, 1322822218, 1537002063, 1747873779,
   1955562222, 2024104815, 2227730452, 2361852424,
   2428436474, 2756734187, 3204031479, 3329325298]

/-- The SHA-256 initial hash value (decimal). -/
def sha_h0 : List Nat :=
  [1779033703, 3144134277, 1013904242, 2773480762,
   1359893119, 2600822924, 528734635, 1541459225]

/-- UTF-8 encoding of one character (the embedding of Python's
`str.encode()` per character). -/
def utf8EncodeChar (c : Char) : List Nat :=
  let n := c.toNat
  if n < 128 then [n]
  else if n < 2048 then [192 + n / 64, 128 + n % 64]
  else if n < 65536 then [224 + n / 4096, 128 + (n / 64) % 64, 128 + n % 64]
  else [240 + n / 262144, 128 + (n / 4096) % 64, 128 + (n / 64) % 64, 128 + n % 64]

/-- `ip.encode()`: the UTF-8 bytes of a string. -/
def utf8Bytes (s : String) : List Nat :=
  (s.data.map utf8EncodeChar).flatten

/-- `k` big-endian bytes of `n`. -/
def beBytes (k n : Nat) : List Nat :=
  (List.range k).map (fun i => (n >>> (8 * (k - 1 - i))) % 256)

/-- SHA-256 padding: append 0x80, zero bytes to 56 mod 64, then the
64-bit big-endian bit length. -/
def padMessage (msg : List Nat) : List Nat :=
  let len := msg.length
  let padZeros := (64 - ((len + 9) % 64)) % 64
  msg ++ [128] ++ List.replicate padZeros 0 ++ beBytes 8 (8 * len)

/-- Group bytes into big-endian 32-bit words. -/
def bytesToWords : List Nat → List Nat
  | b0 :: b1 :: b2 :: b3 :: rest =>
      (((b0 * 256 + b1) * 256 + b2) * 256 + b3) :: bytesToWords rest
  | _ => []

/-- Split a word list into 16-word blocks (fuel-structured so the kernel
can evaluate it). -/
def toBlocksFuel : Nat → List Nat → List (List Nat)
  | 0, _ => []
  | _, [] => []
  | fuel + 1, a :: rest =>
      (a :: rest).take 16 :: toBlocksFuel fuel ((a :: rest).drop 16)

/-- Split a word list into 16-word blocks. -/
def toBlocks (l : List Nat) : List (List Nat) := toBlocksFuel l.length l

/-- Extend a 16-word block to the 64-word message schedule. -/
def schedule (ws : List Nat) : List Nat :=
  (List.range 48).foldl (fun w i =>
    let x15 := w.getD (i + 1) 0
    let x2 := w.getD (i + 14) 0
    let x16 := w.getD i 0
    let x7 := w.getD (i + 9) 0
    let s0 := (rotr32 7 x15) ^^^ (rotr32 18 x15) ^^^ (x15 >>> 3)
    let s1 := (rotr32 17 x2) ^^^ (rotr32 19 x2) ^^^ (x2 >>> 10)
    w ++ [(x16 + s0 + x7 + s1) % 4294967296]) ws

/-- One SHA-256 compression round over a block. -/
def compressBlock (hs : List Nat) (block : List Nat) : List Nat :=
  let w := schedule block
  let final := (List.range 64).foldl (fun s i =>
    match s with
    | (a, b, c, d, e, f, g, h) =>
      let s1 := (rotr32 6 e) ^^^ (rotr32 11 e) ^^^ (rotr32 25 e)
      let ch := (e &&& f) ^^^ ((e ^^^ 4294967295) &&& g)
      let temp1 := (h + s1 + ch + sha_k.getD i 0 + w.getD i 0) % 4294967296
      let s0 := (rotr32 2 a) ^^^ (rotr32 13 a) ^^^ (rotr32 22 a)
      let maj := (a &&& b) ^^^ (a &&& c) ^^^ (b &&& c)
      let temp2 := (s0 + maj) % 4294967296
      ((temp1 + temp2) % 4294967296, a, b, c, (d + temp1) % 4294967296, e, f, g))
    (hs.getD 0 0, hs.getD 1 0, hs.getD 2 0, hs.getD 3 0,
     hs.getD 4 0, hs.getD 5 0, hs.getD 6 0, hs.getD 7 0)
  match final with
  | (a, b, c, d, e, f, g, h) =>
      [(hs.getD 0 0 + a) % 4294967296, (hs.getD 1 0 + b) % 4294967296,
       (hs.getD 2 0 + c) % 4294967296, (hs.getD 3 0 + d) % 4294967296,
       (hs.getD 4 0 + e) % 4294967296, (hs.getD 5 0 + f) % 4294967296,
       (hs.getD 6 0 + g) % 4294967296, (hs.getD 7 0 + h) % 4294967296]

/-- The eight 32-bit words of the SHA-256 digest of a byte list. -/
def sha256words (msg : List Nat) : List Nat :=
  (toBlocks (bytesToWords (padMessage msg))).foldl compressBlock sha_h0

/-- Lowercase hex digit. -/
def hexDigit (n : Nat) : Char := "0123456789abcdef".toList.getD n '0'

/-- The eight hex characters of one digest word, big-endian. -/
def wordHexChars (w : Nat) : List Char :=
  (List.range 8).map (fun i => hexDigit ((w >>> (4 * (7 - i))) % 16))

/-- The 64 hex characters of `hashlib.sha256(msg).hexdigest()`. -/
def sha256_hexdigest_data (msg : List Nat) : List Char :=
  ((sha256words msg).map wordHexChars).flatten

/-- `hashlib.sha256(s.encode()).hexdigest()`. -/
def sha256_hexdigest (s : String) : String :=
  String.mk (sha256_hexdigest_data (utf8Bytes s))

/-- `create_rate_limit_key(ip, endpoint)` (lines 211-215):
`ip_hash = hashlib.sha256(ip.encode()).hexdigest()[:16]` and the key
`f"rate_limit:ENDPOINT:IPHASH"` (string slicing `[:16]` is taking the
first 16 characters). -/
def create_rate_limit_key (ip endpoint : String) : String :=
  let ip_hash := String.mk ((sha256_hexdigest_data (utf8Bytes ip)).take 16)
  "rate_limit:" ++ endpoint ++ ":" ++ ip_hash

/-! ## The `rate_limit` decorator (lines 218-289)

`Request` carries the three sources `get_client_ip` consults; handler
positional arguments are either the request object or some other value;
the `request` keyword argument is an optional request. -/

/-- The parts of a FastAPI `Request` that the middleware reads. -/
structure Request where
  xForwardedFor : Option String
  xRealIp : Option String
  clientHost : Option String
deriving DecidableEq, Repr

/-- A positional argument of a wrapped handler: either the `Request`
instance or any other value. -/
inductive HandlerArg where
  | request (r : Request)
  | value (n : Nat)
deriving DecidableEq, Repr

/-- The wrapper's scan `for arg in args: if isinstance(arg, Request)`. -/
def findRequestArg : List HandlerArg → Option Request
  | [] => none
  | HandlerArg.request r :: _ => some r
  | HandlerArg.value _ :: rest => findRequestArg rest

/-- The wrapper's full request discovery: positional scan, then
`kwargs.get('request')`. -/
def getRequest (args : List HandlerArg) (kwargsRequest : Option Request) :
    Option Request :=
  match findRequestArg args with
  | some r => some r
  | none => kwargsRequest

/-- `get_client_ip` (lines 190-208): X-Forwarded-For (first comma entry,
trimmed), then X-Real-IP (trimmed), then the transport peer address, then
the literal "unknown". -/
def get_client_ip (r : Request) : String :=
  match r.xForwardedFor with
  | some fwd => ((fwd.splitOn ",").headD "").trim
  | none =>
      match r.xRealIp with
      | some rip => rip.trim
      | none =>
          match r.clientHost with
          | some h => h
          | none => "unknown"

/-- One `{"limit": ..., "window": ...}` entry of `RATE_LIMITS`. -/
structure RateConfig where
  limit : Int
  window : Int
deriving DecidableEq, Repr

/-- The `RATE_LIMITS` table (lines 174-187). -/
def RATE_LIMITS : List (String × RateConfig) :=
  [("health", ⟨100, 60⟩), ("analytics_summary", ⟨30, 60⟩),
   ("analytics", ⟨10, 60⟩), ("users", ⟨5, 60⟩),
   ("ask", ⟨20, 300⟩), ("execute", ⟨10, 300⟩), ("roadmaps", ⟨3, 300⟩)]

/-- `RATE_LIMITS.get(endpoint_type, {"limit": 60, "window": 60})`. -/
def rate_limit_config (endpoint_type : String) : RateConfig :=
  match RATE_LIMITS.find? (fun p => p.1 == endpoint_type) with
  | some p => p.2
  | none => ⟨60, 60⟩

/-- A handler/JSON response: status code, headers, body text.  (The code
adds headers only `if hasattr(response, 'headers')`; the embedded
responses all carry headers.) -/
structure Response where
  status : Nat
  headers : List (String × String)
  body : String
deriving DecidableEq, Repr

/-- The `wrapper` produced by `rate_limit(endpoint_type)` (lines 229-286):
locate the request among positional args or the `request` keyword; with no
request, call the handler untouched; otherwise derive key and config, run
`is_allowed`, and either return the 429 response with rate-limit headers
or the handler's response with informational headers appended.  `now` is
the value of `int(time.time())` during the call. -/
def rate_limit_wrapper (endpoint_type : String) (args : List HandlerArg)
    (kwargsRequest : Option Request) (redisUp fails : Bool) (z : Zset)
    (mem : MemoryState) (now : Int)
    (handler : List HandlerArg → Option Request → Response) :
    Response × Zset × MemoryState :=
  match getRequest args kwargsRequest with
  | none => (handler args kwargsRequest, z, mem)
  | some req =>
      let config := rate_limit_config endpoint_type
      let client_ip := get_client_ip req
      let rate_key := create_rate_limit_key client_ip endpoint_type
      let result := is_allowed redisUp fails z mem rate_key config.limit
        config.window now
      let allowed := result.1.1
      let info := result.1.2
      if allowed then
        let resp := handler args kwargsRequest
        (⟨resp.status,
          resp.headers ++
            [("X-RateLimit-Limit", toString info.limit),
             ("X-RateLimit-Remaining", toString info.remaining),
             ("X-RateLimit-Reset", toString info.reset)],
          resp.body⟩, result.2.1, result.2.2)
      else
        (⟨429,
          [("X-RateLimit-Limit", toString info.limit),
           ("X-RateLimit-Remaining", toString info.remaining),
           ("X-RateLimit-Reset", toString info.reset),
           ("Retry-After", toString (info.reset - now))],
          "Rate limit exceeded"⟩, result.2.1, result.2.2)

/-- A concrete handler used as a witness input. -/
def okHandler : List HandlerArg → Option Request → Response :=
  fun _ _ => ⟨200, [], "ok"⟩

/-! ## Helper lemmas -/

lemma trimExpired_idem (now window : Int) (ts : List Int) :
    trimExpired now window (trimExpired now window ts) = trimExpired now window ts := by
  unfold trimExpired
  induction ts with
  | nil => rfl
  | cons a l ih =>
      cases hd : decide (a ≤ now - window) with
      | true => simpa [List.dropWhile_cons, hd] using ih
      | false => simp [List.dropWhile_cons, hd]

lemma msGet_msSet_self (store : List (String × List Int)) (key : String) (v : List Int) :
    msGet (msSet store key v) key = v := by
  induction store with
  | nil => simp [msSet, msGet]
  | cons p rest ih =>
      by_cases h : p.1 = key
      · simp [msSet, msGet, h]
      · have hb : (p.1 == key) = false := by simpa using h
        simp only [msSet, hb, Bool.false_eq_true, if_false]
        simpa [msGet, hb] using ih

lemma msGet_eq_nil_of_not_mem (store : List (String × List Int)) (key : String)
    (h : key ∉ store.map Prod.fst) : msGet store key = [] := by
  induction store with
  | nil => rfl
  | cons p rest ih =>
      simp only [List.map_cons, List.mem_cons, not_or] at h
      have hb : (p.1 == key) = false := by
        simpa using fun e => h.1 e.symm
      simpa [msGet, hb] using ih h.2

lemma not_mem_cleanup_keys (now window : Int) (store : List (String × List Int))
    (key : String) (h : key ∉ store.map Prod.fst) :
    key ∉ (cleanup_memory now window store).map Prod.fst := by
  have h1 : List.Sublist
      ((store.map (fun p => (p.1, trimExpired now window p.2))).filter
        (fun p => !p.2.isEmpty))
      (store.map (fun p => (p.1, trimExpired now window p.2))) :=
    List.filter_sublist _
  have h2 := h1.map Prod.fst
  have hsub : List.Sublist ((cleanup_memory now window store).map Prod.fst)
      (store.map Prod.fst) := by
    simpa [cleanup_memory, List.map_map, Function.comp] using h2
  exact fun hmem => h (hsub.subset hmem)

lemma msGet_cleanup (now window : Int) (store : List (String × List Int)) (key : String)
    (hnd : (store.map Prod.fst).Nodup) :
    msGet (cleanup_memory now window store) key =
      trimExpired now window (msGet store key) := by
  induction store with
  | nil => rfl
  | cons p rest ih =>
      simp only [List.map_cons, List.nodup_cons] at hnd
      obtain ⟨hnotin, hnd'⟩ := hnd
      by_cases h : p.1 = key
      · have hb : (p.1 == key) = true := by simpa using h
        by_cases he : (trimExpired now window p.2).isEmpty
        · have hnil : trimExpired now window p.2 = [] := by
            simpa [List.isEmpty_iff] using he
          have hrest : msGet (cleanup_memory now window rest) key = [] :=
            msGet_eq_nil_of_not_mem _ _
              (not_mem_cleanup_keys now window rest key (h ▸ hnotin))
          simp [cleanup_memory, List.filter_cons, he, msGet, hb, hnil] at hrest ⊢
          simpa [cleanup_memory, msGet] using hrest
        · simp [cleanup_memory, List.filter_cons, he, msGet, hb]
      · have hb : (p.1 == key) = false := by simpa using h
        by_cases he : (trimExpired now window p.2).isEmpty
        · simpa [cleanup_memory, List.filter_cons, he, msGet, hb] using ih hnd'
        · simpa [cleanup_memory, List.filter_cons, he, msGet, hb] using ih hnd'

/-- Characterization of the memory check at `limit = 0`: the deny branch is
taken unconditionally (no count is below zero) and no event is recorded. -/
lemma check_memory_key_zero (window now : Int) (ts : List Int) :
    check_memory_key 0 window now ts =
      ((false, ⟨0, 0, now + window, ((trimExpired now window ts).length : Int)⟩),
        trimExpired now window ts) := by
  have h : decide (((trimExpired now window ts).length : Int) < 0) = false := by
    simp
  have hmax : max (0:Int) (0 - ((trimExpired now window ts).length : Int)) = 0 :=
    max_eq_left (by omega)
  unfold check_memory_key
  simp [h, hmax]

/-! ## Claim theorems -/

/-- Claim C1: for a fresh key under policy limit=3, window=60, four
sequential in-memory checks at now=0,1,2,3 return
allowed=[true,true,true,false] with remaining=[2,1,0,0], and each allowed
check records exactly its own timestamp (final stored sequence [0,1,2]). -/
theorem C1_example_scenario :
    check_memory ⟨[], 0⟩ "k" 3 60 0 =
      ((true, ⟨3, 2, 60, 1⟩), ⟨[("k", [0])], 0⟩) ∧
    check_memory ⟨[("k", [0])], 0⟩ "k" 3 60 1 =
      ((true, ⟨3, 1, 61, 2⟩), ⟨[("k", [0, 1])], 0⟩) ∧
    check_memory ⟨[("k", [0, 1])], 0⟩ "k" 3 60 2 =
      ((true, ⟨3, 0, 62, 3⟩), ⟨[("k", [0, 1, 2])], 0⟩) ∧
    check_memory ⟨[("k", [0, 1, 2])], 0⟩ "k" 3 60 3 =
      ((false, ⟨3, 0, 63, 3⟩), ⟨[("k", [0, 1, 2])], 0⟩) := by
  decide

/-- Claim C2 fails on the Redis path: with limit=1, window=60 and a fresh
key, the first check (now=0) is admitted, and the second check (now=1) is
denied with current = 2, which exceeds limit = 1. -/
theorem C2_counterexample :
    (redis_check_core 1 60 0 []).1.1 = true ∧
    (redis_check_core 1 60 1 ((redis_check_core 1 60 0 []).2)).1.1 = false ∧
    1 < (redis_check_core 1 60 1 ((redis_check_core 1 60 0 []).2)).1.2.current := by
  decide

/-- Claim C2 (amended): for the in-memory backend a denied check records no
event (the state stays the trimmed sequence), `current` never exceeds
`limit` as long as the unexpired count is at most `limit`, and the
(limit+1)-th check within one window (unexpired count = limit) is denied
with current = limit.  The Redis path instead returns
current = count + 1 even on denial, which then exceeds `limit`. -/
theorem C2_amended_denial_invariants :
    (∀ (limit window now : Int) (ts : List Int),
      (check_memory_key limit window now ts).1.1 = false →
      (check_memory_key limit window now ts).2 = trimExpired now window ts) ∧
    (∀ (limit window now : Int) (ts : List Int),
      ((trimExpired now window ts).length : Int) ≤ limit →
      (check_memory_key limit window now ts).1.2.current ≤ limit) ∧
    (∀ (limit window now : Int) (ts : List Int),
      ((trimExpired now window ts).length : Int) = limit →
      (check_memory_key limit window now ts).1.1 = false ∧
      (check_memory_key limit window now ts).1.2.current = limit) ∧
    (∀ (limit window now : Int) (z : Zset),
      (redis_check_core limit window now z).1.1 = false →
      (redis_check_core limit window now z).1.2.current =
        ((zremrangebyscore 0 (now - window) z).length : Int) + 1 ∧
      limit < (redis_check_core limit window now z).1.2.current) := by
  refine ⟨?_, ?_, ?_, ?_⟩
  · intro limit window now ts h
    unfold check_memory_key at h ⊢
    by_cases hc : ((trimExpired now window ts).length : Int) < limit
    · simp [hc] at h
    · simp [hc]
  · intro limit window now ts h
    unfold check_memory_key
    by_cases hc : ((trimExpired now window ts).length : Int) < limit
    · simp [hc]
      omega
    · simp [hc]
      omega
  · intro limit window now ts h
    have hc : ¬ ((trimExpired now window ts).length : Int) < limit := by omega
    unfold check_memory_key
    simp [hc]
    omega
  · intro limit window now z h
    unfold redis_check_core at h ⊢
    by_cases hc : ((zremrangebyscore 0 (now - window) z).length : Int) + 1 ≤ limit
    · simp [hc] at h
    · simp [hc]
      omega

/-- Witness for C2 (amended) at concrete inputs. -/
theorem C2_amended_denial_invariants_witness :
    (check_memory_key 1 60 1 [0]).2 = trimExpired 1 60 [0] ∧
    (check_memory_key 3 60 1 [0]).1.2.current ≤ 3 ∧
    ((check_memory_key 1 60 1 [0]).1.1 = false ∧
      (check_memory_key 1 60 1 [0]).1.2.current = 1) ∧
    ((redis_check_core 1 60 1 [("0", 0)]).1.2.current =
        ((zremrangebyscore 0 (1 - 60) [("0", 0)]).length : Int) + 1 ∧
      1 < (redis_check_core 1 60 1 [("0", 0)]).1.2.current) := by
  refine ⟨?_, ?_, ?_, ?_⟩
  · exact C2_amended_denial_invariants.1 1 60 1 [0] (by decide)
  · exact C2_amended_denial_invariants.2.1 3 60 1 [0] (by decide)
  · exact C2_amended_denial_invariants.2.2.1 1 60 1 [0] (by decide)
  · exact C2_amended_denial_invariants.2.2.2 1 60 1 [("0", 0)] (by decide)

/-- Claim C3: when the Redis client is configured but the Redis check
raises, `is_allowed` does not propagate the exception: it returns exactly
the result of the in-memory algorithm on the same arguments (updating the
memory state and leaving the Redis state untouched). -/
theorem C3_redis_exception_falls_back_to_memory :
    ∀ (z : Zset) (mem : MemoryState) (key : String) (limit window now : Int),
      is_allowed true true z mem key limit window now =
        ((check_memory mem key limit window now).1, z,
          (check_memory mem key limit window now).2) := by
  intro z mem key limit window now
  rfl

lemma trimExpired_eq_self_of_head (now window t0 : Int) (ts : List Int)
    (hh : ts.head? = some t0) (h : now - window < t0) :
    trimExpired now window ts = ts := by
  cases ts with
  | nil => rfl
  | cons a l =>
      have ha : a = t0 := by simpa using hh
      subst ha
      have hd : decide (a ≤ now - window) = false := by
        simp only [decide_eq_false_iff_not]
        omega
      simp [trimExpired, List.dropWhile_cons, hd]

lemma trimExpired_eq_filter_of_sorted (now window : Int) (ts : List Int)
    (hs : ts.Pairwise (· ≤ ·)) :
    trimExpired now window ts = ts.filter (fun t => decide (now - window < t)) := by
  induction ts with
  | nil => rfl
  | cons a l ih =>
      rw [List.pairwise_cons] at hs
      obtain ⟨hall, hp⟩ := hs
      by_cases h : a ≤ now - window
      · have hd : decide (a ≤ now - window) = true := by simpa using h
        have hf : decide (now - window < a) = false := by
          simp only [decide_eq_false_iff_not]
          omega
        simp [trimExpired, List.dropWhile_cons, hd, List.filter_cons, hf]
        exact ih hp
      · have hd : decide (a ≤ now - window) = false := by simpa using h
        have hf : decide (now - window < a) = true := by
          simp only [decide_eq_true_eq]
          omega
        have hrest : l.filter (fun t => decide (now - window < t)) = l := by
          rw [List.filter_eq_self]
          intro x hx
          have := hall x hx
          simp only [decide_eq_true_eq]
          omega
        simp [trimExpired, List.dropWhile_cons, hd, List.filter_cons, hf, hrest]

/-- Claim C7: re-checking without recording is idempotent.  Once the
unexpired count has reached the limit, a repeated check at the same or any
later `now` at which the oldest event is still unexpired is denied, leaves
the key's event sequence unchanged, and returns the same `remaining`; and
(for a time-sorted sequence) the trim step keeps exactly the unexpired
events, so a check after expiry reflects only unexpired events. -/
theorem C7_recheck_idempotent_and_expiry :
    (∀ (limit window now nowLater t0 : Int) (ts : List Int),
      ts.head? = some t0 → now ≤ nowLater → nowLater - window < t0 →
      limit ≤ (ts.length : Int) →
      (check_memory_key limit window nowLater ts).1.1 = false ∧
      (check_memory_key limit window nowLater ts).2 = ts ∧
      (check_memory_key limit window nowLater ts).1.2.remaining =
        (check_memory_key limit window now ts).1.2.remaining) ∧
    (∀ (window now : Int) (ts : List Int), ts.Pairwise (· ≤ ·) →
      trimExpired now window ts = ts.filter (fun t => decide (now - window < t))) := by
  constructor
  · intro limit window now nowLater t0 ts hh hle hfresh hlim
    have htrimL : trimExpired nowLater window ts = ts :=
      trimExpired_eq_self_of_head nowLater window t0 ts hh hfresh
    have htrimN : trimExpired now window ts = ts :=
      trimExpired_eq_self_of_head now window t0 ts hh (by omega)
    have hc : ¬ ((ts.length : Int) < limit) := by omega
    unfold check_memory_key
    rw [htrimL, htrimN]
    simp [hc]
  · intro window now ts hs
    exact trimExpired_eq_filter_of_sorted now window ts hs

/-- Witness for C7 at concrete inputs. -/
theorem C7_recheck_idempotent_and_expiry_witness :
    ((check_memory_key 3 60 10 [0, 1, 2]).1.1 = false ∧
     (check_memory_key 3 60 10 [0, 1, 2]).2 = [0, 1, 2] ∧
     (check_memory_key 3 60 10 [0, 1, 2]).1.2.remaining =
       (check_memory_key 3 60 3 [0, 1, 2]).1.2.remaining) ∧
    trimExpired 100 60 [30, 50] =
      ([30, 50] : List Int).filter (fun t => decide ((100 : Int) - 60 < t)) := by
  constructor
  · exact C7_recheck_idempotent_and_expiry.1 3 60 3 10 0 [0, 1, 2]
      (by decide) (by decide) (by decide) (by decide)
  · exact C7_recheck_idempotent_and_expiry.2 60 100 [30, 50] (by decide)

lemma redis_check_core_nil (limit window now : Int) (h : 1 ≤ limit) :
    redis_check_core limit window now [] =
      ((true, ⟨limit, max 0 (limit - 1), now + window, 1⟩),
        [(toString now, now)]) := by
  have hd : (0 : Int) + 1 ≤ limit := by omega
  unfold redis_check_core zremrangebyscore zadd zrem
  simp [hd]
  omega

lemma redis_check_core_single (limit window now : Int) (hw : 1 ≤ window) :
    redis_check_core limit window now [(toString now, now)] =
      ((decide (2 ≤ limit), ⟨limit, max 0 (limit - 2), now + window, 2⟩),
        if 2 ≤ limit then [(toString now, now)] else []) := by
  have h1 : ¬ (now ≤ now - window) := by omega
  unfold redis_check_core zremrangebyscore zadd zrem
  by_cases h2 : 2 ≤ limit
  · have hd : (1 : Int) + 1 ≤ limit := by omega
    simp [h1, hd, h2]
  · have hd : ¬ ((1 : Int) + 1 ≤ limit) := by omega
    simp [h1, hd, h2]

/-- Claim C9: the Redis member for an event is the decimal string of `now`,
so for a fresh key two checks in the same second collide on one member:
with limit ≥ 2 both are admitted yet leave exactly one recorded event (the
second zadd overwrites the first); with limit = 1 the second check is
denied and its rollback `zrem str(now)` removes the event recorded by the
first, admitted check. -/
theorem C9_same_second_member_collision :
    ∀ (limit window now : Int), 1 ≤ window →
      (2 ≤ limit →
        (redis_check_core limit window now ([] : Zset)).1.1 = true ∧
        (redis_check_core limit window now
            ((redis_check_core limit window now ([] : Zset)).2)).1.1 = true ∧
        (redis_check_core limit window now
            ((redis_check_core limit window now ([] : Zset)).2)).2 =
          [(toString now, now)]) ∧
      (limit = 1 →
        (redis_check_core limit window now ([] : Zset)).1.1 = true ∧
        (redis_check_core limit window now
            ((redis_check_core limit window now ([] : Zset)).2)).1.1 = false ∧
        (redis_check_core limit window now
            ((redis_check_core limit window now ([] : Zset)).2)).2 = []) := by
  intro limit window now hw
  constructor
  · intro h2
    rw [redis_check_core_nil limit window now (by omega)]
    rw [redis_check_core_single limit window now hw]
    simp [h2]
  · intro h1
    subst h1
    rw [redis_check_core_nil 1 window now (by omega)]
    rw [redis_check_core_single 1 window now hw]
    simp

/-- Witness for C9 at limit=2 and limit=1, window=60, now=5. -/
theorem C9_same_second_member_collision_witness :
    ((redis_check_core 2 60 5 ([] : Zset)).1.1 = true ∧
     (redis_check_core 2 60 5
         ((redis_check_core 2 60 5 ([] : Zset)).2)).1.1 = true ∧
     (redis_check_core 2 60 5
         ((redis_check_core 2 60 5 ([] : Zset)).2)).2 =
       [(toString (5 : Int), (5 : Int))]) ∧
    ((redis_check_core 1 60 5 ([] : Zset)).1.1 = true ∧
     (redis_check_core 1 60 5
         ((redis_check_core 1 60 5 ([] : Zset)).2)).1.1 = false ∧
     (redis_check_core 1 60 5
         ((redis_check_core 1 60 5 ([] : Zset)).2)).2 = []) := by
  constructor
  · exact (C9_same_second_member_collision 2 60 5 (by decide)).1 (by decide)
  · exact (C9_same_second_member_collision 1 60 5 (by decide)).2 rfl

lemma cleanup_memory_cons (now window : Int) (p : String × List Int)
    (rest : List (String × List Int)) :
    cleanup_memory now window (p :: rest) =
      if (trimExpired now window p.2).isEmpty then cleanup_memory now window rest
      else (p.1, trimExpired now window p.2) :: cleanup_memory now window rest := by
  by_cases he : (trimExpired now window p.2).isEmpty
  · simp [cleanup_memory, List.filter_cons, he]
  · simp [cleanup_memory, List.filter_cons, he]

lemma msGet_cons (p : String × List Int) (rest : List (String × List Int))
    (key : String) :
    msGet (p :: rest) key = if p.1 == key then p.2 else msGet rest key := by
  by_cases hb : (p.1 == key) = true
  · simp [msGet, hb]
  · have hb' : (p.1 == key) = false := by simpa using hb
    simp [msGet, hb']

lemma mem_cleanup_keys_iff (now window : Int) (store : List (String × List Int))
    (key : String) (hnd : (store.map Prod.fst).Nodup)
    (hmem : key ∈ store.map Prod.fst) :
    key ∈ (cleanup_memory now window store).map Prod.fst ↔
      trimExpired now window (msGet store key) ≠ [] := by
  induction store with
  | nil => simp at hmem
  | cons p rest ih =>
      simp only [List.map_cons, List.nodup_cons] at hnd
      obtain ⟨hnotin, hnd'⟩ := hnd
      rw [List.map_cons] at hmem
      rw [cleanup_memory_cons]
      by_cases he : (trimExpired now window p.2).isEmpty
      · rw [if_pos he, msGet_cons]
        have hnil : trimExpired now window p.2 = [] := by
          simpa [List.isEmpty_iff] using he
        by_cases h : p.1 = key
        · have hb : (p.1 == key) = true := by simpa using h
          have habs : key ∉ (cleanup_memory now window rest).map Prod.fst :=
            not_mem_cleanup_keys now window rest key (h ▸ hnotin)
          rw [if_pos hb]
          simp [hnil, habs]
        · have hb : (p.1 == key) = false := by simpa using h
          have hmem' : key ∈ rest.map Prod.fst := by
            rcases List.mem_cons.mp hmem with hc | hc
            · exact absurd hc.symm h
            · exact hc
          rw [if_neg (by simp [hb])]
          exact ih hnd' hmem'
      · rw [if_neg he, msGet_cons]
        have hne : trimExpired now window p.2 ≠ [] := by
          simpa [List.isEmpty_iff] using he
        by_cases h : p.1 = key
        · have hb : (p.1 == key) = true := by simpa using h
          rw [if_pos hb]
          simp [h, hne]
        · have hb : (p.1 == key) = false := by simpa using h
          have hmem' : key ∈ rest.map Prod.fst := by
            rcases List.mem_cons.mp hmem with hc | hc
            · exact absurd hc.symm h
            · exact hc
          rw [if_neg (by simp [hb])]
          simp only [List.map_cons, List.mem_cons]
          rw [or_iff_right (fun e : key = p.1 => h e.symm)]
          exact ih hnd' hmem'

/-- Claim C5 fails on the code: the sweep triggered by a check with
window=60 at now=150 deletes key "a" whose only event (t=50) is still
inside the 300-second window of the policy it was recorded under
(150 - 300 < 50, so key "a"'s own check would have kept it). -/
theorem C5_counterexample :
    ((check_memory ⟨[("a", [50])], 0⟩ "b" 3 60 150).2.store.find?
        (fun p => p.1 == "a")) = none ∧
    trimExpired 150 300 [50] = [50] := by
  decide

/-- Claim C5 (amended): the periodic sweep trims every key using the window
of whichever check triggered it.  Relative to that single window it is
exact: a key is deleted iff every one of its recorded events is at or
before now - window, and the surviving value of every key is its
trigger-window-trimmed sequence; but events recorded under a policy with a
longer window may be removed while still inside that policy's own window. -/
theorem C5_amended_sweep_uses_trigger_window :
    ∀ (now window : Int) (store : List (String × List Int)) (key : String),
      (store.map Prod.fst).Nodup →
      (key ∈ store.map Prod.fst →
        (key ∉ (cleanup_memory now window store).map Prod.fst ↔
          ∀ t ∈ msGet store key, t ≤ now - window)) ∧
      msGet (cleanup_memory now window store) key =
        trimExpired now window (msGet store key) := by
  intro now window store key hnd
  constructor
  · intro hmem
    rw [mem_cleanup_keys_iff now window store key hnd hmem]
    rw [not_not]
    unfold trimExpired
    rw [List.dropWhile_eq_nil_iff]
    simp
  · exact msGet_cleanup now window store key hnd

/-- Witness for C5 (amended) at a concrete store. -/
theorem C5_amended_sweep_uses_trigger_window_witness :
    (("a" : String) ∈ ([("a", [50]), ("b", [100])] :
        List (String × List Int)).map Prod.fst →
      (("a" : String) ∉
          (cleanup_memory 150 60 [("a", [50]), ("b", [100])]).map Prod.fst ↔
        ∀ t ∈ msGet [("a", [50]), ("b", [100])] "a", t ≤ (150 : Int) - 60)) ∧
    msGet (cleanup_memory 150 60 [("a", [50]), ("b", [100])]) "a" =
      trimExpired 150 60 (msGet [("a", [50]), ("b", [100])] "a") := by
  exact C5_amended_sweep_uses_trigger_window 150 60
    [("a", [50]), ("b", [100])] "a" (by decide)

/-- Claim C8: a check with limit = 0 always denies and records no event:
the key's stored sequence afterwards is exactly its trimmed (expired
entries removed) previous value, with nothing appended. -/
theorem C8_limit_zero_always_denies :
    ∀ (st : MemoryState) (key : String) (window now : Int),
      (st.store.map Prod.fst).Nodup →
      (check_memory st key 0 window now).1.1 = false ∧
      msGet (check_memory st key 0 window now).2.store key =
        trimExpired now window (msGet st.store key) := by
  intro st key window now hnd
  unfold check_memory
  by_cases hcl : now - st.lastCleanup > memory_cleanup_interval
  · simp only [hcl, if_true, check_memory_key_zero, msGet_msSet_self]
    refine ⟨trivial, ?_⟩
    rw [msGet_cleanup now window st.store key hnd, trimExpired_idem]
  · simp only [hcl, if_false, check_memory_key_zero, msGet_msSet_self]
    exact ⟨trivial, trivial⟩

/-- Witness for C8 at a concrete state. -/
theorem C8_limit_zero_always_denies_witness :
    (check_memory ⟨[("k", [5])], 0⟩ "k" 0 60 10).1.1 = false ∧
    msGet (check_memory ⟨[("k", [5])], 0⟩ "k" 0 60 10).2.store "k" =
      trimExpired 10 60 (msGet [("k", [5])] "k") := by
  exact C8_limit_zero_always_denies ⟨[("k", [5])], 0⟩ "k" 60 10 (by decide)

lemma redis_check_core_zOfTimes (limit window t : Int) (acc : List Int)
    (hfresh : ∀ a ∈ acc, t - window < a ∧ toString a ≠ toString t) :
    redis_check_core limit window t (zOfTimes acc) =
      ((decide ((acc.length : Int) + 1 ≤ limit),
        ⟨limit, max 0 (limit - ((acc.length : Int) + 1)), t + window,
          (acc.length : Int) + 1⟩),
       if (acc.length : Int) + 1 ≤ limit then zOfTimes (acc ++ [t])
       else zOfTimes acc) := by
  have hz1 : zremrangebyscore 0 (t - window) (zOfTimes acc) = zOfTimes acc := by
    apply List.filter_eq_self.mpr
    intro p hp
    obtain ⟨a, ha, rfl⟩ := List.mem_map.mp hp
    have h1 := (hfresh a ha).1
    simp only [Bool.not_eq_true', Bool.and_eq_false_iff, decide_eq_false_iff_not]
    right
    omega
  have hany : (zOfTimes acc).any (fun p => p.1 == toString t) = false := by
    rw [List.any_eq_false]
    intro p hp
    obtain ⟨a, ha, rfl⟩ := List.mem_map.mp hp
    simpa using (hfresh a ha).2
  have hz2 : zadd (toString t) t (zOfTimes acc) = zOfTimes (acc ++ [t]) := by
    unfold zadd
    rw [hany]
    simp [zOfTimes]
  have hz3 : zrem (toString t) (zOfTimes (acc ++ [t])) = zOfTimes acc := by
    have h1 : (zOfTimes acc).filter (fun p => !(p.1 == toString t)) =
        zOfTimes acc := by
      apply List.filter_eq_self.mpr
      intro p hp
      obtain ⟨a, ha, rfl⟩ := List.mem_map.mp hp
      simpa using (hfresh a ha).2
    have h2 : (zOfTimes [t]).filter (fun p => !(p.1 == toString t)) = [] := by
      simp [zOfTimes]
    calc zrem (toString t) (zOfTimes (acc ++ [t]))
        = (zOfTimes acc).filter (fun p => !(p.1 == toString t)) ++
            (zOfTimes [t]).filter (fun p => !(p.1 == toString t)) := by
          simp [zrem, zOfTimes, List.filter_append]
      _ = zOfTimes acc := by rw [h1, h2, List.append_nil]
  have hlen : (((zOfTimes acc).length : Nat) : Int) = (acc.length : Int) := by
    simp [zOfTimes]
  simp only [redis_check_core]
  rw [hz1, hz2, hlen]
  by_cases hc : (acc.length : Int) + 1 ≤ limit
  · simp [hc]
  · simp [hc, hz3]

lemma runRedisChecks_spec (limit window : Int) (ks : List Int) :
    ∀ (acc : List Int),
      (acc.length : Int) ≤ limit →
      (∀ a ∈ acc, ∀ u ∈ ks, u - window < a ∧ toString a ≠ toString u) →
      ks.Pairwise (fun t u => u - window < t ∧ toString t ≠ toString u) →
      runRedisChecks limit window (zOfTimes acc) ks =
        ((List.range ks.length).map
            (fun i : Nat => decide ((acc.length : Int) + (i : Int) < limit)),
         zOfTimes (acc ++ ks.take ((limit - (acc.length : Int)).toNat))) := by
  induction ks with
  | nil =>
      intro acc hlen hacc hpw
      simp [runRedisChecks]
  | cons t rest ih =>
      intro acc hlen hacc hpw
      rw [List.pairwise_cons] at hpw
      obtain ⟨hhead, hpw'⟩ := hpw
      have hfresh : ∀ a ∈ acc, t - window < a ∧ toString a ≠ toString t :=
        fun a ha => hacc a ha t (List.mem_cons_self t rest)
      have hstep := redis_check_core_zOfTimes limit window t acc hfresh
      simp only [runRedisChecks, hstep]
      have hl2 : (((acc ++ [t]).length : Nat) : Int) = (acc.length : Int) + 1 := by
        simp
      by_cases hc : (acc.length : Int) + 1 ≤ limit
      · rw [if_pos hc]
        have ih' := ih (acc ++ [t])
          (by rw [hl2]; omega)
          (by
            intro a ha u hu
            rcases List.mem_append.mp ha with hc2 | hc2
            · exact hacc a hc2 u (List.mem_cons_of_mem t hu)
            · have hat : a = t := by simpa using hc2
              subst hat
              exact hhead u hu)
          hpw'
        rw [ih']
        simp only [Prod.mk.injEq]
        constructor
        · rw [List.length_cons, List.range_succ_eq_map, List.map_cons,
            List.map_map, List.cons_eq_cons]
          refine ⟨?_, ?_⟩
          · apply decide_eq_decide.mpr
            push_cast
            omega
          · apply List.map_congr_left
            intro i _
            simp only [Function.comp_apply]
            rw [hl2]
            apply decide_eq_decide.mpr
            push_cast
            omega
        · rw [hl2]
          have hk : (limit - (acc.length : Int)).toNat =
              (limit - ((acc.length : Int) + 1)).toNat + 1 := by omega
          rw [hk, List.take_succ_cons, List.append_assoc, List.singleton_append]
      · rw [if_neg hc]
        have ih' := ih acc hlen
          (fun a ha u hu => hacc a ha u (List.mem_cons_of_mem t hu)) hpw'
        rw [ih']
        simp only [Prod.mk.injEq]
        constructor
        · rw [List.length_cons, List.range_succ_eq_map, List.map_cons,
            List.map_map, List.cons_eq_cons]
          refine ⟨?_, ?_⟩
          · apply decide_eq_decide.mpr
            push_cast
            omega
          · apply List.map_congr_left
            intro i _
            simp only [Function.comp_apply]
            apply decide_eq_decide.mpr
            push_cast
            omega
        · have hk : (limit - (acc.length : Int)).toNat = 0 := by omega
          rw [hk, List.take_zero, List.take_zero]

/-- Claim C4 fails on the code: three serialized checks (one possible
interleaving of limit + K = 1 + 2 concurrent callers) in the same second
against a fresh key with limit=1 yield TWO admissions, not one: the denied
second check's rollback `zrem str(0)` erases the first admission's event,
so the third check finds an empty window and is admitted. -/
theorem C4_counterexample :
    (runRedisChecks 1 60 [] [0, 0, 0]).1 = [true, false, true] ∧
    (runRedisChecks 1 60 [] [0, 0, 0]).1.count true = 2 := by
  decide

/-- Claim C4 (amended): when the limit + K checks are serialized (each
transaction immediately followed by its rollback) and carry pairwise
distinct timestamps all within one window of each other, the shared-backend
run admits exactly the first `limit` checks and denies the other K, and the
recorded events for the key never exceed `limit` after any prefix of the
run.  With same-second (equal-timestamp) interleavings the denial rollback
can erase an admitted event and more than `limit` checks get admitted. -/
theorem C4_amended_sequential_distinct_times :
    ∀ (limit : Int) (K : Nat) (window : Int) (ks : List Int),
      0 ≤ limit →
      ks.length = limit.toNat + K →
      ks.Pairwise (fun t u => u - window < t ∧ toString t ≠ toString u) →
      (runRedisChecks limit window [] ks).1 =
        List.replicate limit.toNat true ++ List.replicate K false ∧
      ∀ i : Nat,
        (((runRedisChecks limit window [] (ks.take i)).2).length : Int) ≤ limit := by
  intro limit K window ks h0 hlen hpw
  have hz : zOfTimes [] = ([] : Zset) := rfl
  constructor
  · have h := runRedisChecks_spec limit window ks []
      (by simpa using h0) (by intro a ha; simp at ha) hpw
    rw [hz] at h
    simp only [List.length_nil, Nat.cast_zero, List.nil_append, sub_zero,
      zero_add] at h
    have h1 : (runRedisChecks limit window [] ks).1 =
        (List.range ks.length).map (fun i : Nat => decide ((i : Int) < limit)) := by
      rw [h]
    rw [h1, hlen, List.range_add, List.map_append]
    congr 1
    · apply List.eq_replicate_iff.mpr
      refine ⟨by simp, ?_⟩
      intro b hb
      obtain ⟨i, hi, rfl⟩ := List.mem_map.mp hb
      have hlt := List.mem_range.mp hi
      apply decide_eq_true
      omega
    · rw [List.map_map]
      apply List.eq_replicate_iff.mpr
      refine ⟨by simp, ?_⟩
      intro b hb
      obtain ⟨i, hi, rfl⟩ := List.mem_map.mp hb
      simp only [Function.comp_apply]
      apply decide_eq_false
      push_cast
      omega
  · intro i
    have hpwi : (ks.take i).Pairwise
        (fun t u => u - window < t ∧ toString t ≠ toString u) :=
      hpw.sublist (List.take_sublist i ks)
    have h := runRedisChecks_spec limit window (ks.take i) []
      (by simpa using h0) (by intro a ha; simp at ha) hpwi
    rw [hz] at h
    simp only [List.length_nil, Nat.cast_zero, List.nil_append, sub_zero] at h
    have h2 : (runRedisChecks limit window [] (ks.take i)).2 =
        zOfTimes ((ks.take i).take limit.toNat) := by
      rw [h]
    rw [h2]
    simp only [zOfTimes, List.length_map, List.length_take]
    omega
theorem C4_amended_sequential_distinct_times_witness :
    (runRedisChecks 2 60 [] [0, 1, 2]).1 =
      List.replicate (2 : Int).toNat true ++ List.replicate 1 false ∧
    (((runRedisChecks 2 60 [] (([0, 1, 2] : List Int).take 2)).2).length : Int) ≤ 2 := by
  have h := C4_amended_sequential_distinct_times 2 1 60 [0, 1, 2]
    (by decide) (by decide) (by decide)
  exact ⟨h.1, h.2 2⟩

set_option maxRecDepth 10000 in
/-- Sanity check of the SHA-256 embedding against the standard empty-string
test vector. -/
lemma sha256_hexdigest_empty :
    sha256_hexdigest "" =
      "e3b0c44298fc1c149afbf4c8996fb92427ae41e4649b934ca495991b7852b855" := by
  decide

set_option maxRecDepth 10000 in
/-- Sanity check of the SHA-256 embedding against the standard "abc"
test vector. -/
lemma sha256_hexdigest_abc :
    sha256_hexdigest "abc" =
      "ba7816bf8f01cfea414140de5dae2223b00361a396177a9cb410ff61f20015ad" := by
  decide

set_option maxRecDepth 10000 in
/-- Claim C6 fails on the code: the key prefix is `"rate_limit:"` (with an
underscore), not `"ratelimit:"` as the spec sentence writes it, as shown at
the concrete input ip="1.2.3.4", endpoint_class="health". -/
theorem C6_counterexample :
    create_rate_limit_key "1.2.3.4" "health" ≠
      "ratelimit:" ++ "health" ++ ":" ++
        String.mk ((sha256_hexdigest "1.2.3.4").data.take 16) ∧
    create_rate_limit_key "1.2.3.4" "health" =
      "rate_limit:health:6694f83c9f476da3" := by
  constructor
  · decide
  · decide

/-- Claim C6 (amended): the derived key equals
`"rate_limit:" + endpoint_class + ":" + hex(sha256(caller_address))[:16]`
(underscored prefix), and identical (address, class) inputs always yield
the identical key. -/
theorem C6_amended_key_format :
    ∀ (ip endpoint : String),
      create_rate_limit_key ip endpoint =
        "rate_limit:" ++ endpoint ++ ":" ++
          String.mk ((sha256_hexdigest ip).data.take 16) ∧
      ∀ (ip2 endpoint2 : String), ip = ip2 → endpoint = endpoint2 →
        create_rate_limit_key ip endpoint =
          create_rate_limit_key ip2 endpoint2 := by
  intro ip endpoint
  constructor
  · rfl
  · intro ip2 endpoint2 h1 h2
    rw [h1, h2]

set_option maxRecDepth 10000 in
/-- Witness for C6 (amended) at ip="1.2.3.4", endpoint="health". -/
theorem C6_amended_key_format_witness :
    create_rate_limit_key "1.2.3.4" "health" =
      "rate_limit:" ++ "health" ++ ":" ++
        String.mk ((sha256_hexdigest "1.2.3.4").data.take 16) ∧
    create_rate_limit_key "1.2.3.4" "health" =
      create_rate_limit_key "1.2.3.4" "health" := by
  exact ⟨(C6_amended_key_format "1.2.3.4" "health").1,
    (C6_amended_key_format "1.2.3.4" "health").2 "1.2.3.4" "health" rfl rfl⟩

/-- Claim C10: when the wrapper finds no Request among the positional
arguments nor in the `request` keyword argument, it performs no rate-limit
check at all: the handler is invoked with the unchanged arguments, its
response is returned without any header additions, and neither backend
state is touched. -/
theorem C10_no_request_fail_open :
    ∀ (endpoint_type : String) (args : List HandlerArg)
      (kwargsRequest : Option Request) (redisUp fails : Bool) (z : Zset)
      (mem : MemoryState) (now : Int)
      (handler : List HandlerArg → Option Request → Response),
      getRequest args kwargsRequest = none →
      rate_limit_wrapper endpoint_type args kwargsRequest redisUp fails z mem
          now handler =
        (handler args kwargsRequest, z, mem) := by
  intro endpoint_type args kwargsRequest redisUp fails z mem now handler h
  simp only [rate_limit_wrapper, h]

/-- Witness for C10 at a concrete request-free call. -/
theorem C10_no_request_fail_open_witness :
    rate_limit_wrapper "ask" [HandlerArg.value 1] none false false []
        ⟨[], 0⟩ 0 okHandler =
      (okHandler [HandlerArg.value 1] none, [], ⟨[], 0⟩) := by
  exact C10_no_request_fail_open "ask" [HandlerArg.value 1] none false false
    [] ⟨[], 0⟩ 0 okHandler (by decide)

end RateLimiting
